import Mathlib

/-!
Verification of the TargetUp dashboard (src/app.py): a shallow embedding of
its data normalization functions (get_data, get_mail_data, get_fb_ads_data,
get_mailgun_stats) and of the pandas filter / groupby / ratio / timeline
operations used by the pages, together with theorems settling the claims of
the specification against that embedding.

Conventions of the embedding:
- a pandas cell is a string, a number (modelled as a rational) or NaN/None;
- a raw row is an association list from column name to cell, a dataframe is
  a list of columns plus a list of rows;
- dates are encoded as integers y*10000 + m*100 + d, which orders them
  chronologically; pd.to_datetime is modelled as an ISO yyyy-mm-dd parser
  (day resolution), which is the format the sheets use;
- pd.to_numeric is modelled as an integer parser (the claims only depend on
  parse success versus failure, not on decimal precision);
- an operation that can raise a Python exception returns Except.
-/

namespace Dashboard

/-- Cell of a dataframe: string, numeric, or missing (NaN / None). -/
inductive Cell where
  | str (s : String)
  | num (q : ℚ)
  | null
deriving DecidableEq, Repr

/-- True for the NaN / missing cell, mirroring pandas isna. -/
def Cell.isNull : Cell → Bool
  | .null => true
  | _ => false

/-- String content of a cell (the string itself, a rendering of a number,
or the empty string for NaN), as pandas astype(str)-like access. -/
def Cell.asString : Cell → String
  | .str s => s
  | .num q => toString q
  | .null => ""

/-- Numeric value of a digit character, if it is one. -/
def digitVal (c : Char) : Option Nat :=
  if 48 ≤ c.toNat ∧ c.toNat ≤ 57 then some (c.toNat - 48) else none

/-- Parse a nonempty all-digit character list as a natural number. -/
def parseNatChars : List Char → Option Nat
  | [] => none
  | cs => go cs 0
where
  go : List Char → Nat → Option Nat
    | [], acc => some acc
    | c :: cs, acc =>
      match digitVal c with
      | some d => go cs (acc * 10 + d)
      | none => none

/-- Split a character list on a separator character. -/
def splitChars (sep : Char) : List Char → List (List Char)
  | [] => [[]]
  | c :: cs =>
    let rest := splitChars sep cs
    if c = sep then [] :: rest
    else
      match rest with
      | [] => [[c]]
      | g :: gs => (c :: g) :: gs

/-- Build the rational n/1 directly (no normalization needed). -/
def intToRat (n : Int) : ℚ :=
  ⟨n, 1, one_ne_zero, n.natAbs.coprime_one_right⟩

/-- Model of pd.to_datetime at day resolution, for the ISO yyyy-mm-dd
strings the sheets contain: success yields the integer y*10000+m*100+d
(chronologically ordered), anything unparsable yields none. -/
def parseDate : Cell → Option Int
  | .str s =>
    match splitChars (Char.ofNat 45) s.data with
    | [ys, ms, ds] =>
      match parseNatChars ys, parseNatChars ms, parseNatChars ds with
      | some y, some m, some d =>
        if 1 ≤ m ∧ m ≤ 12 ∧ 1 ≤ d ∧ d ≤ 31 then
          some ((y : Int) * 10000 + (m : Int) * 100 + (d : Int))
        else none
      | _, _, _ => none
    | _ => none
  | .num _ => none
  | .null => none

/-- Model of pd.to_numeric on one cell: numbers pass through, integer
strings (optionally negative) parse, anything else fails. -/
def parseNum : Cell → Option ℚ
  | .num q => some q
  | .str s =>
    match s.data with
    | [] => none
    | c :: cs =>
      if c = Char.ofNat 45 then (parseNatChars cs).map (fun n => intToRat (-(n : Int)))
      else (parseNatChars (c :: cs)).map (fun n => intToRat (n : Int))
  | .null => none

/-- Model of pd.to_numeric(col, errors=coerce).fillna(default) on one
cell: the parsed number, or the default where parsing fails. -/
def coerceNum (default : ℚ) (c : Cell) : ℚ :=
  (parseNum c).getD default

/-- Raw row: an association list from column name to cell, as produced by
get_all_records or an API response. -/
def RawRow := List (String × Cell)
deriving DecidableEq, Repr

/-- Value of a column in a raw row; a missing key reads as NaN. -/
def RawRow.get (r : RawRow) (c : String) : Cell :=
  match List.find? (fun p => p.1 == c) r with
  | some p => p.2
  | none => .null

/-- Overwrite one column of a raw row (dataframe column assignment). -/
def RawRow.setCell (r : RawRow) (c : String) (v : Cell) : RawRow :=
  (c, v) :: List.filter (fun p => !(p.1 == c)) r

/-- Dataframe: a column schema plus the rows. -/
structure Frame where
  cols : List String
  rows : List RawRow
deriving DecidableEq, Repr

/-- Normalized AO (tender tracking) record, the row shape produced by
get_data: a date, the Source and Status strings and the numeric Nombre. -/
structure AORow where
  date : Int
  source : String
  status : String
  nombre : ℚ
deriving DecidableEq, Repr

/-- Embedding of get_data (src/app.py lines 164-169).  After fetching, the
code runs dropna(subset=[Date, Source]), then pd.to_datetime(df[Date])
WITHOUT errors=coerce — so one present-but-unparsable date raises a
ValueError for the whole frame, modelled as Except.error — and then
pd.to_numeric(df[Nombre], errors=coerce).fillna(1). -/
def aoDropna (rows : List RawRow) : List RawRow :=
  rows.filter fun r => !(r.get "Date").isNull && !(r.get "Source").isNull

def get_data (rows : List RawRow) : Except String (List AORow) :=
  if (aoDropna rows).all (fun r => (parseDate (r.get "Date")).isSome) then
    .ok ((aoDropna rows).map fun r =>
      { date := (parseDate (r.get "Date")).getD 0
        source := (r.get "Source").asString
        status := (r.get "Status").asString
        nombre := coerceNum 1 (r.get "Nombre") })
  else
    .error "UnparsableDate"

/-- One worksheet of the mail tracking spreadsheet: its title, the header
columns and the raw rows. -/
structure Worksheet where
  title : String
  cols : List String
  rows : List RawRow
deriving DecidableEq, Repr

/-- Normalized mail tracking record: the parsed date, the raw cells and
the worksheet title stored in the SheetName column. -/
structure MailRow where
  date : Int
  cells : RawRow
  sheetName : String
deriving DecidableEq, Repr

/-- Embedding of the per-worksheet body of get_mail_data (src/app.py lines
185-201): a worksheet that is empty or lacks a Date column is skipped;
dates are parsed with errors=coerce and rows whose date did not parse are
dropped. -/
def processWs (ws : Worksheet) : List MailRow :=
  if ws.rows.isEmpty || !(ws.cols.contains "Date") then []
  else
    (ws.rows.filter fun r => (parseDate (r.get "Date")).isSome).map fun r =>
      { date := (parseDate (r.get "Date")).getD 0
        cells := r
        sheetName := ws.title }

/-- Embedding of get_mail_data (src/app.py lines 171-206): concatenation
of the surviving rows of every worksheet. -/
def get_mail_data (sheets : List Worksheet) : List MailRow :=
  (sheets.map processWs).flatten

/-- Numeric columns coerced by get_fb_ads_data. -/
def fbNumericCols : List String := ["spend", "impressions", "clicks", "cpc", "ctr"]

/-- Coerce one column of a frame with pd.to_numeric(errors=coerce).fillna(0),
guarded by membership of the column in the schema (src/app.py lines 142-144). -/
def coerceColumn (f : Frame) (c : String) : Frame :=
  if f.cols.contains c then
    { f with rows := f.rows.map fun r => r.setCell c (.num (coerceNum 0 (r.get c))) }
  else f

/-- Embedding of the numeric normalization of get_fb_ads_data (src/app.py
lines 139-145): each declared numeric column present in the frame is
coerced, unparsable values becoming 0; no row is dropped. -/
def get_fb_ads_data (f : Frame) : Frame :=
  fbNumericCols.foldl coerceColumn f

/-- Read a whole column of a frame; an absent column name raises KeyError,
as pandas does (modelled as Except.error). -/
def Frame.getCol (f : Frame) (c : String) : Except String (List Cell) :=
  if f.cols.contains c then .ok (f.rows.map fun r => r.get c)
  else .error "KeyError"

/-- True when the character list sub occurs as a contiguous substring. -/
def containsChars (s sub : List Char) : Bool :=
  match s with
  | [] => sub.isEmpty
  | _ :: tl => startsChars s sub || containsChars tl sub
where
  startsChars : List Char → List Char → Bool
    | _, [] => true
    | [], _ :: _ => false
    | a :: as, b :: bs => a == b && startsChars as bs

/-- Model of the pandas str.contains(pat, na=False) test on one cell:
substring containment for string cells, false for NaN and numbers. -/
def cellContainsOui : Cell → Bool
  | .str s => containsChars s.data "Oui".data
  | _ => false

/-- Embedding of the Emails Envoyés metric of the Mail Tracking page
(src/app.py lines 380 and 390): len of the rows whose Email Envoyé cell
contains Oui.  Reading the column raises KeyError when it is absent. -/
def sentEmailsMetric (f : Frame) : Except String Nat :=
  (f.getCol "Email Envoyé ").map fun col => (col.filter cellContainsOui).length

/-- Embedding of the AO Dashboard filter (src/app.py lines 267-270): the
boolean mask keeps the rows whose Date lies between start_date and
end_date (both inclusive) and whose Source and Status belong to the
multiselect selections, combined with the & of the four masks. -/
def aoFilter (df : List AORow) (startDate endDate : Int)
    (sources statusList : List String) : List AORow :=
  df.filter fun r =>
    decide (startDate ≤ r.date) && decide (r.date ≤ endDate) &&
    decide (r.source ∈ sources) && decide (r.status ∈ statusList)

/-- Normalized Google Analytics master row (src/app.py lines 551-583). -/
structure GARow where
  date : Int
  channelGroup : String
  country : String
  pagePath : String
  activeUsers : ℚ
  newUsers : ℚ
  sessions : ℚ
  screenPageViews : ℚ
  avgSessionDurationSec : ℚ
deriving DecidableEq, Repr

/-- Embedding of the Google Analytics sidebar filters (src/app.py lines
600-608): each multiselect restricts its column only when the selection is
nonempty (an empty Python list is falsy), and the radio optionally keeps
only rows with avgSessionDurationSec above one second. -/
def gaFilter (df : List GARow) (selCountries selSources selPages : List String)
    (durOverOne : Bool) : List GARow :=
  let d1 := if selCountries.isEmpty then df
    else df.filter fun r => decide (r.country ∈ selCountries)
  let d2 := if selSources.isEmpty then d1
    else d1.filter fun r => decide (r.channelGroup ∈ selSources)
  let d3 := if selPages.isEmpty then d2
    else d2.filter fun r => decide (r.pagePath ∈ selPages)
  if durOverOne then d3.filter fun r => decide (1 < r.avgSessionDurationSec)
  else d3

/-- Number of rows of a table satisfying a predicate, the len(df[mask])
idiom of the dashboard. -/
def countRows (t : List α) (p : α → Bool) : Nat :=
  (t.filter p).length

/-- Ratio pattern shared by the Conversion KPIs (src/app.py lines 291-296)
and get_mailgun_stats (line 218): numerator count over denominator count
times 100, guarded to 0 when the denominator count is zero. -/
def ratioMetric (t : List α) (pnum pden : α → Bool) : ℚ :=
  if 0 < countRows t pden then
    (countRows t pnum : ℚ) / (countRows t pden : ℚ) * 100
  else 0

/-- Lexicographic code-point comparison of character lists, the order
pandas uses when sorting string group keys. -/
def strLeChars : List Char → List Char → Bool
  | [], _ => true
  | _ :: _, [] => false
  | a :: as, b :: bs =>
    if a.toNat < b.toNat then true
    else if b.toNat < a.toNat then false
    else strLeChars as bs

/-- Lexicographic code-point comparison of strings. -/
def strLe (a b : String) : Bool :=
  strLeChars a.data b.data

/-- Order relation on strings used to model the key sort of pandas
groupby(sort=True). -/
def strOrd (a b : String) : Prop :=
  strLe a b = true

instance : DecidableRel strOrd := fun a b => by
  unfold strOrd; infer_instance

/-- Embedding of the grouped count aggregate df.groupby(g)[m].count() used
by the Source Distribution chart (src/app.py lines 304-307) and the
timelines: pandas sorts the distinct group keys ascending and counts the
rows of each group (the counted column is never null after
normalization, so count equals group size). -/
def groupbyCount (t : List α) (g : α → String) : List (String × Nat) :=
  (((t.map g).dedup).insertionSort strOrd).map fun k =>
    (k, countRows t fun r => decide (g r = k))

/-- Embedding of the grouped sum aggregate df.groupby(g)[m].sum() used by
the Google Analytics charts (src/app.py lines 637, 642, 649, 654). -/
def groupbySum (t : List α) (g : α → String) (m : α → ℚ) : List (String × ℚ) :=
  (((t.map g).dedup).insertionSort strOrd).map fun k =>
    (k, ((t.filter fun r => decide (g r = k)).map m).sum)

/-- Order on key/value pairs comparing the aggregated value, as
sort_values on the metric column. -/
def valOrd (a b : String × ℚ) : Prop :=
  a.2 ≤ b.2

instance : DecidableRel valOrd := fun a b => by
  unfold valOrd; infer_instance

/-- Embedding of df.sort_values(metric) on a grouped series. -/
def sortValues (xs : List (String × ℚ)) : List (String × ℚ) :=
  xs.insertionSort valOrd

/-- Embedding of the Traffic Sources chart series (src/app.py lines
648-650): sessions summed per channel group, then sorted ascending by the
sessions value. -/
def trafficSources (t : List GARow) : List (String × ℚ) :=
  sortValues (groupbySum t (fun r => r.channelGroup) (fun r => r.sessions))

/-- Embedding of the AO Source Distribution series (src/app.py lines
304-307): df_filtered.groupby(Source)[Nombre].count(). -/
def aoSourceDistribution (t : List AORow) : List (String × Nat) :=
  groupbyCount t fun r => r.source

/-- Embedding of the day-bucketed timelines df.groupby(Date).size() of the
AO page (src/app.py line 335) and the Mail page (line 398): one entry per
distinct date present in the table, keys sorted ascending. -/
def timeSeries (t : List α) (d : α → Int) : List (Int × Nat) :=
  (((t.map d).dedup).insertionSort (· ≤ ·)).map fun k =>
    (k, countRows t fun r => decide (d r = k))

/-- AO Activité Timeline (src/app.py line 335). -/
def aoTimeline (t : List AORow) : List (Int × Nat) :=
  timeSeries t fun r => r.date

/-- Mail volume timeline (src/app.py line 398). -/
def mailTimeline (t : List MailRow) : List (Int × Nat) :=
  timeSeries t fun r => r.date

/-- One event section of the Mailgun stats JSON: the total field may be
absent (dict.get with default 0). -/
structure MgSection where
  total : Option Nat
deriving DecidableEq, Repr

/-- One entry of the stats array: the accepted and opened sections may each
be absent (dict.get with default the empty dict). -/
structure MgStat where
  accepted : Option MgSection
  opened : Option MgSection
deriving DecidableEq, Repr

/-- Outcome of the Mailgun request as get_mailgun_stats observes it:
either some exception was raised during the request or the parsing of the
response, or a response with a status code and an optional stats array
(none models a JSON object with no stats key). -/
inductive MgResponse where
  | exc
  | ok (status : Nat) (stats : Option (List MgStat))
deriving DecidableEq, Repr

/-- Total of an optional section, following the chain
get(section, {}).get(total, 0). -/
def sectionTotal (s : Option MgSection) : Nat :=
  ((s.getD { total := none }).total).getD 0

/-- Rate and opened count computed from the first stats entry (src/app.py
lines 216-219): open rate is opened over accepted times 100, guarded to 0
when accepted is 0. -/
def mgRateOf (s : MgStat) : ℚ × Nat :=
  let acc := sectionTotal s.accepted
  let ope := sectionTotal s.opened
  (if 0 < acc then (ope : ℚ) / (acc : ℚ) * 100 else 0, ope)

/-- Embedding of get_mailgun_stats (src/app.py lines 209-221).  The whole
body sits in a try with a bare except returning (0, 0); a non-200 status
falls through the if to the same (0, 0); a missing stats key defaults to
a one-element array holding an empty dict; an empty stats array raises
IndexError on the [0] access, caught by the except. -/
def get_mailgun_stats (resp : MgResponse) : ℚ × Nat :=
  match resp with
  | .exc => (0, 0)
  | .ok status stats? =>
    if status = 200 then
      match stats? with
      | none => mgRateOf { accepted := none, opened := none }
      | some [] => (0, 0)
      | some (s :: _) => mgRateOf s
    else (0, 0)

/-- Branch of the top-level page dispatch of the script (src/app.py lines
249, 254, 339, 404, 445, 534): the sidebar selectbox value selects exactly
one branch of the if/elif chain per rerun. -/
inductive Branch where
  | home
  | ao
  | mail
  | metaAds
  | financial
  | ga
  | nothing
deriving DecidableEq, Repr

/-- Embedding of the if/elif chain dispatching on the page string, in the
order the source tests the branches. -/
def pageBranch (page : String) : Branch :=
  if page = "🏠 Home" then .home
  else if page = "📊 AO Dashboard" then .ao
  else if page = "📧 Mail Tracking" then .mail
  else if page = "📱 Meta Ads" then .metaAds
  else if page = "💰 Financial Impact" then .financial
  else if page = "🌐 Google Analytics" then .ga
  else .nothing

/-- Dataframe variable names bound by each branch during one rerun of the
script (Streamlit reruns the whole script per interaction, so locals()
holds only the names the executed branch assigned).  df_fb is assigned
only in the Meta Ads branch, and only when the date input returned a
two-element range (src/app.py lines 413-414). -/
def branchLocals (b : Branch) (fbRangeIsPair : Bool) : List String :=
  match b with
  | .home => []
  | .ao => ["df", "df_filtered", "df_today", "df_timeline"]
  | .mail => ["df_m", "df_m_filtered", "df_m_today", "mail_timeline"]
  | .metaAds => if fbRangeIsPair then ["df_fb"] else []
  | .financial =>
    ["df_leads", "df_revenue", "funnel", "pivot_leads", "pivot_pipeline",
     "df_join", "revenue_by_source"]
  | .ga => ["df_master", "df_filtered", "df_timeline", "df_geo", "df_src", "df_pg"]
  | .nothing => []

/-- Embedding of the Meta spend guard of the Financial Impact page
(src/app.py line 519): df_fb.spend.sum() if df_fb is in locals(), else 0. -/
def meta_spend (b : Branch) (fbRangeIsPair : Bool) (dfFbSpendSum : ℚ) : ℚ :=
  if (branchLocals b fbRangeIsPair).contains "df_fb" then dfFbSpendSum else 0

/-- Embedding of the Meta ROI metric (src/app.py line 528): revenue minus
spend over spend times 100, guarded to 0 when spend is not positive. -/
def meta_roi (metaRevenue spend : ℚ) : ℚ :=
  if 0 < spend then (metaRevenue - spend) / spend * 100 else 0

/-! General lemmas shared by the claim theorems. -/

theorem strLeChars_total (x y : List Char) :
    strLeChars x y = true ∨ strLeChars y x = true := by
  induction x generalizing y with
  | nil => exact Or.inl rfl
  | cons a as ih =>
    cases y with
    | nil => exact Or.inr rfl
    | cons b bs =>
      rcases Nat.lt_trichotomy a.toNat b.toNat with h | h | h
      · left; simp [strLeChars, h]
      · have h1 : ¬ a.toNat < b.toNat := by omega
        have h2 : ¬ b.toNat < a.toNat := by omega
        rcases ih bs with d | d
        · left; simp [strLeChars, h1, h2, d]
        · right; simp [strLeChars, h1, h2, d]
      · right; simp [strLeChars, h]

theorem strLeChars_trans (x y z : List Char) (hxy : strLeChars x y = true)
    (hyz : strLeChars y z = true) : strLeChars x z = true := by
  induction x generalizing y z with
  | nil => rfl
  | cons a as ih =>
    cases y with
    | nil => simp [strLeChars] at hxy
    | cons b bs =>
      cases z with
      | nil => simp [strLeChars] at hyz
      | cons c cs =>
        rcases Nat.lt_trichotomy a.toNat b.toNat with hab | hab | hab
        · rcases Nat.lt_trichotomy b.toNat c.toNat with hbc | hbc | hbc
          · have hac : a.toNat < c.toNat := by omega
            simp [strLeChars, hac]
          · have hac : a.toNat < c.toNat := by omega
            simp [strLeChars, hac]
          · have hcb : ¬ b.toNat < c.toNat := by omega
            simp [strLeChars, hbc, hcb] at hyz
        · rcases Nat.lt_trichotomy b.toNat c.toNat with hbc | hbc | hbc
          · have hac : a.toNat < c.toNat := by omega
            simp [strLeChars, hac]
          · have h1 : ¬ a.toNat < c.toNat := by omega
            have h2 : ¬ c.toNat < a.toNat := by omega
            have h3 : ¬ a.toNat < b.toNat := by omega
            have h4 : ¬ b.toNat < a.toNat := by omega
            have h5 : ¬ b.toNat < c.toNat := by omega
            have h6 : ¬ c.toNat < b.toNat := by omega
            simp [strLeChars, h3, h4] at hxy
            simp [strLeChars, h5, h6] at hyz
            simp [strLeChars, h1, h2]
            exact ih bs cs hxy hyz
          · have hcb : ¬ b.toNat < c.toNat := by omega
            simp [strLeChars, hbc, hcb] at hyz
        · have hba : ¬ a.toNat < b.toNat := by omega
          simp [strLeChars, hab, hba] at hxy

theorem strOrd_total : ∀ a b : String, strOrd a b ∨ strOrd b a :=
  fun a b => strLeChars_total a.data b.data

theorem strOrd_trans : ∀ a b c : String, strOrd a b → strOrd b c → strOrd a c :=
  fun a b c => strLeChars_trans a.data b.data c.data

theorem countRows_cons (a : α) (t : List α) (p : α → Bool) :
    countRows (a :: t) p = (if p a then 1 else 0) + countRows t p := by
  simp only [countRows, List.filter_cons]
  by_cases h : p a <;> simp [h, Nat.add_comm]

theorem sum_map_add (K : List κ) (f g : κ → Nat) :
    (K.map fun k => f k + g k).sum = (K.map f).sum + (K.map g).sum := by
  induction K with
  | nil => rfl
  | cons k K ih => simp [ih]; omega

theorem sum_indicator_not_mem (K : List String) (v : String) (hv : v ∉ K) :
    (K.map fun k => if v = k then 1 else 0).sum = 0 := by
  induction K with
  | nil => rfl
  | cons k K ih =>
    have h1 : v ≠ k := fun h => hv (h ▸ List.mem_cons_self k K)
    have h2 : v ∉ K := fun h => hv (List.mem_cons_of_mem k h)
    simp [h1, ih h2]

theorem sum_indicator_nodup (K : List String) (v : String) (hnd : K.Nodup)
    (hv : v ∈ K) : (K.map fun k => if v = k then 1 else 0).sum = 1 := by
  induction K with
  | nil => cases hv
  | cons k K ih =>
    rcases List.mem_cons.mp hv with h | h
    · subst h
      have hnotin : v ∉ K := (List.nodup_cons.mp hnd).1
      simp [sum_indicator_not_mem K v hnotin]
    · have hne : v ≠ k := by
        rintro rfl; exact (List.nodup_cons.mp hnd).1 h
      simp [hne, ih (List.nodup_cons.mp hnd).2 h]

theorem sum_countRows_keys (t : List α) (g : α → String) (K : List String)
    (hnd : K.Nodup) (hcov : ∀ x ∈ t, g x ∈ K) :
    (K.map fun k => countRows t fun r => decide (g r = k)).sum = t.length := by
  induction t with
  | nil => simp [countRows]
  | cons a t ih =>
    have hga : g a ∈ K := hcov a (List.mem_cons_self a t)
    have hcov2 : ∀ x ∈ t, g x ∈ K := fun x hx => hcov x (List.mem_cons_of_mem a hx)
    have hsplit : (K.map fun k => countRows (a :: t) fun r => decide (g r = k)).sum
        = (K.map fun k => if g a = k then 1 else 0).sum
          + (K.map fun k => countRows t fun r => decide (g r = k)).sum := by
      rw [← sum_map_add]
      simp only [countRows_cons, decide_eq_true_eq]
    rw [hsplit, sum_indicator_nodup K (g a) hnd hga, ih hcov2]
    simp [Nat.add_comm]

theorem map_fst_of_pairs {κ β : Type} (f : κ → β) (l : List κ) :
    (l.map fun k => (k, f k)).map Prod.fst = l := by
  induction l with
  | nil => rfl
  | cons a l ih => simp [ih]

theorem foldl_coerceColumn_length (cs : List String) (f : Frame) :
    ((cs.foldl coerceColumn f).rows.length) = f.rows.length := by
  induction cs generalizing f with
  | nil => rfl
  | cons c cs ih =>
    rw [List.foldl_cons, ih]
    unfold coerceColumn
    split <;> simp

/-! Claim theorems. -/

/-- C1: for every canonical table and filter specification with a start
date, an end date and categorical allowed-value sets, the filter keeps
exactly the records whose date lies in the inclusive range and whose value
for each constrained column belongs to the allowed set; constraints
combine by AND, values within one constraint by OR (membership).  Both at
the AO Dashboard filter and at the Google Analytics filters, where an
absent (empty) selection leaves the column unrestricted. -/
theorem filter_keeps_exactly_matching_records :
    (∀ (df : List AORow) (s e : Int) (src sts : List String) (r : AORow),
      r ∈ aoFilter df s e src sts ↔
        r ∈ df ∧ s ≤ r.date ∧ r.date ≤ e ∧ r.source ∈ src ∧ r.status ∈ sts) ∧
    (∀ (df : List GARow) (cs ss ps : List String) (dur : Bool) (r : GARow),
      r ∈ gaFilter df cs ss ps dur ↔
        r ∈ df ∧ (cs ≠ [] → r.country ∈ cs) ∧ (ss ≠ [] → r.channelGroup ∈ ss) ∧
          (ps ≠ [] → r.pagePath ∈ ps) ∧
          (dur = true → 1 < r.avgSessionDurationSec)) := by
  constructor
  · intro df s e src sts r
    simp [aoFilter, List.mem_filter, and_assoc]
  · intro df cs ss ps dur r
    simp only [gaFilter]
    by_cases h1 : cs.isEmpty <;> by_cases h2 : ss.isEmpty <;>
      by_cases h3 : ps.isEmpty <;> cases dur <;>
      simp_all [List.mem_filter, List.isEmpty_iff] <;> tauto

/-- Witness for C1: a concrete row inside the range with selected source
and status is kept by the AO filter, and a concrete GA row passing a
country constraint with the other selections empty is kept. -/
theorem filter_keeps_exactly_matching_records_witness :
    ((⟨20240115, "Web", "Accepté", 1⟩ : AORow) ∈
      aoFilter [⟨20240115, "Web", "Accepté", 1⟩, ⟨20240220, "Mail", "Refus", 1⟩]
        20240101 20240131 ["Web", "Mail"] ["Accepté"]) ∧
    ((⟨20240101, "Organic Search", "France", "/home", 10, 5, 12, 30, 2⟩ : GARow) ∈
      gaFilter [⟨20240101, "Organic Search", "France", "/home", 10, 5, 12, 30, 2⟩]
        ["France"] [] [] false) :=
  ⟨(filter_keeps_exactly_matching_records.1 _ _ _ _ _ _).mpr (by decide),
   (filter_keeps_exactly_matching_records.2 _ _ _ _ _ _).mpr
     (by refine ⟨by decide, by decide, ?_, ?_, ?_⟩ <;> simp)⟩

/-- C5: the ratio metric is 0 when the denominator predicate matches no
row, and exactly 100 when the numerator and denominator predicates select
identical nonempty row sets. -/
theorem ratio_guard_and_identity {α : Type} :
    ∀ (t : List α) (pnum pden : α → Bool),
      (countRows t pden = 0 → ratioMetric t pnum pden = 0) ∧
      (t.filter pnum = t.filter pden → t.filter pden ≠ [] →
        ratioMetric t pnum pden = 100) := by
  intro t pnum pden
  constructor
  · intro h
    simp [ratioMetric, h]
  · intro heq hne
    have hc : countRows t pnum = countRows t pden := by
      simp [countRows, heq]
    have hpos : 0 < countRows t pden := by
      simpa [countRows] using List.length_pos.mpr hne
    have hnz : ((countRows t pden : ℚ)) ≠ 0 := by
      exact_mod_cast Nat.pos_iff_ne_zero.mp hpos
    simp [ratioMetric, hpos, hc, div_self hnz]

/-- Witness for C5 on concrete AO tables: a denominator predicate matching
no row gives 0, and identical numerator and denominator predicates on a
nonempty table give 100. -/
theorem ratio_guard_and_identity_witness :
    ratioMetric ([⟨20240101, "Web", "Accepté", 1⟩] : List AORow)
        (fun r => r.status == "Accepté") (fun r => r.status == "Opportunité") = 0 ∧
    ratioMetric ([⟨20240101, "Web", "Accepté", 1⟩, ⟨20240102, "Mail", "Accepté", 1⟩] : List AORow)
        (fun r => r.status == "Accepté") (fun r => r.status == "Accepté") = 100 :=
  ⟨(ratio_guard_and_identity _ _ _).1 (by decide),
   (ratio_guard_and_identity _ _ _).2 rfl (by decide)⟩

/-- C10: on the Financial Impact page the Meta spend used for ROI is
always 0, because df_fb is bound only by the mutually exclusive Meta Ads
branch of the page dispatch, so the locals() guard falls back to 0; the
displayed Meta ROI is therefore 0 whatever the Meta revenue. -/
theorem financial_page_meta_roi_always_zero :
    ∀ (fbRangeIsPair : Bool) (dfFbSpendSum metaRevenue : ℚ),
      meta_spend (pageBranch "💰 Financial Impact") fbRangeIsPair dfFbSpendSum = 0 ∧
      meta_roi metaRevenue
        (meta_spend (pageBranch "💰 Financial Impact") fbRangeIsPair dfFbSpendSum) = 0 := by
  intro fb s rev
  have hb : pageBranch "💰 Financial Impact" = Branch.financial := by decide
  have hspend : meta_spend Branch.financial fb s = 0 := by
    simp [meta_spend, branchLocals]
  refine ⟨by rw [hb]; exact hspend, ?_⟩
  rw [hb, hspend]
  simp [meta_roi]

/-- C6 counterexample: the AO Source Distribution aggregate is NOT sorted
ascending by the aggregated value.  On a table with two rows of source
SiteA and one row of SiteB, pandas groupby returns the keys sorted
alphabetically, so the value sequence is [2, 1], which descends. -/
theorem grouped_aggregate_not_sorted_by_value :
    ¬ List.Sorted (· ≤ ·) ((aoSourceDistribution
        [⟨20240101, "SiteB", "Accepté", 1⟩,
         ⟨20240101, "SiteA", "Refus", 1⟩,
         ⟨20240102, "SiteA", "Accepté", 1⟩]).map Prod.snd) := by
  decide

/-- C6 amended: the AO Source Distribution grouped aggregate returns its
pairs sorted ascending by the GROUP KEY (the pandas groupby default), not
by the aggregated value; the Google Analytics Traffic Sources series,
which applies sort_values on the metric, is sorted ascending by the
aggregated value. -/
theorem grouped_aggregate_sort_order :
    (∀ t : List AORow,
      List.Sorted strOrd ((aoSourceDistribution t).map Prod.fst)) ∧
    (∀ t : List GARow,
      List.Sorted (· ≤ ·) ((trafficSources t).map Prod.snd)) := by
  constructor
  · intro t
    haveI : IsTotal String strOrd := ⟨strOrd_total⟩
    haveI : IsTrans String strOrd := ⟨strOrd_trans⟩
    have hkeys : (aoSourceDistribution t).map Prod.fst
        = ((t.map fun r => r.source).dedup).insertionSort strOrd := by
      unfold aoSourceDistribution groupbyCount
      exact map_fst_of_pairs _ _
    rw [hkeys]
    exact List.sorted_insertionSort _ _
  · intro t
    haveI : IsTotal (String × ℚ) valOrd := ⟨fun a b => le_total a.2 b.2⟩
    haveI : IsTrans (String × ℚ) valOrd := ⟨fun _ _ _ h1 h2 => le_trans h1 h2⟩
    have hs : List.Sorted valOrd (trafficSources t) :=
      List.sorted_insertionSort _ _
    exact List.Pairwise.map Prod.snd (fun _ _ h => h) hs

/-- C7: every timeline series groups rows by exact calendar day, its date
keys are strictly ascending with no duplicates, and a date appears among
the keys exactly when some record of the table carries it (days with zero
records are absent, never synthesized). -/
theorem time_series_strict_keys_no_gap_fill {α : Type} :
    ∀ (t : List α) (d : α → Int),
      List.Sorted (· < ·) ((timeSeries t d).map Prod.fst) ∧
      ∀ k : Int, k ∈ (timeSeries t d).map Prod.fst ↔ ∃ r ∈ t, d r = k := by
  intro t d
  have hkeys : (timeSeries t d).map Prod.fst
      = ((t.map d).dedup).insertionSort (· ≤ ·) := by
    unfold timeSeries
    exact map_fst_of_pairs _ _
  constructor
  · rw [hkeys]
    have hs : List.Sorted (· ≤ ·) (((t.map d).dedup).insertionSort (· ≤ ·)) :=
      List.sorted_insertionSort _ _
    have hnd : (((t.map d).dedup).insertionSort (· ≤ ·)).Nodup :=
      ((List.perm_insertionSort _ _).nodup_iff).mpr ((t.map d).nodup_dedup)
    exact (hs.and hnd).imp fun h => lt_of_le_of_ne h.1 h.2
  · intro k
    rw [hkeys]
    simp [List.mem_dedup, List.mem_map]

/-- Witness for C7: the AO timeline of a concrete two-day table has
strictly ascending keys. -/
theorem time_series_strict_keys_witness :
    List.Sorted (· < ·) ((timeSeries
        ([⟨20240103, "Web", "Accepté", 1⟩, ⟨20240101, "Web", "Refus", 1⟩] : List AORow)
        (fun r => r.date)).map Prod.fst) :=
  (time_series_strict_keys_no_gap_fill _ _).1

/-- C8: the per-group counts of the grouped count aggregate always sum to
the length of the table — no row is dropped from the partition, an empty
or unseen group value being a literal category like any other. -/
theorem grouped_counts_sum_to_length {α : Type} :
    ∀ (t : List α) (g : α → String),
      ((groupbyCount t g).map Prod.snd).sum = t.length := by
  intro t g
  unfold groupbyCount
  rw [List.map_map]
  have hfun : (Prod.snd ∘ fun k => (k, countRows t fun r => decide (g r = k)))
      = fun k => countRows t fun r => decide (g r = k) := rfl
  rw [hfun]
  have hperm : List.Perm
      ((((t.map g).dedup).insertionSort strOrd).map
        fun k => countRows t fun r => decide (g r = k))
      (((t.map g).dedup).map fun k => countRows t fun r => decide (g r = k)) :=
    (List.perm_insertionSort _ _).map _
  rw [hperm.sum_eq]
  exact sum_countRows_keys t g _ ((t.map g).nodup_dedup)
    (fun x hx => List.mem_dedup.mpr (List.mem_map_of_mem g hx))

/-- Witness for C8 on a concrete table with an empty-string group value:
the counts sum to the table length 3. -/
theorem grouped_counts_sum_witness :
    ((groupbyCount ([⟨1, "A", "x", 1⟩, ⟨2, "", "y", 1⟩, ⟨3, "A", "z", 1⟩] : List AORow)
        (fun r => r.source)).map Prod.snd).sum = 3 := by
  have h := grouped_counts_sum_to_length
    ([⟨1, "A", "x", 1⟩, ⟨2, "", "y", 1⟩, ⟨3, "A", "z", 1⟩] : List AORow)
    (fun r => r.source)
  simpa using h

/-- C2: evaluation of both normalization paths at a row whose date does
not parse.  get_mail_data (which passes errors=coerce before dropna)
drops the row and returns normally, but get_data calls pd.to_datetime
without errors=coerce, so the same row makes the whole call raise —
modelled as Except.error — instead of being excluded: the claim holds for
the mail path and is violated by the AO path. -/
theorem get_data_raises_on_unparsable_date :
    get_data [[("Date", Cell.str "N/A"), ("Source", Cell.str "Web"),
               ("Status", Cell.str "Accepté"), ("Nombre", Cell.num 1)]]
      = Except.error "UnparsableDate" ∧
    get_mail_data [{ title := "Prospects",
                     cols := ["Date", "Source", "Status", "Nombre"],
                     rows := [[("Date", Cell.str "N/A"), ("Source", Cell.str "Web"),
                               ("Status", Cell.str "Accepté"), ("Nombre", Cell.num 1)]] }]
      = [] := by
  exact ⟨rfl, rfl⟩

/-- C3 counterexample: in the get_fb_ads_data normalization path an
unparsable spend value is substituted with 0, not 1 (the row is kept).
This refutes the claim that every dataset substitutes 1. -/
theorem fb_unparsable_measure_becomes_zero :
    ((get_fb_ads_data ⟨["ad_name", "spend"],
        [[("ad_name", Cell.str "Ad1"), ("spend", Cell.str "N/A")]]⟩).rows.map
      fun r => r.get "spend") = [Cell.num 0] ∧
    (get_fb_ads_data ⟨["ad_name", "spend"],
        [[("ad_name", Cell.str "Ad1"), ("spend", Cell.str "N/A")]]⟩).rows.length = 1 ∧
    Cell.num 0 ≠ Cell.num 1 := by
  refine ⟨rfl, rfl, by decide⟩

/-- C3 amended: a measure value that is absent or fails numeric parsing is
substituted with 1 in get_data (Nombre column) but with 0 in
get_fb_ads_data (its numeric columns); in neither path does the failure
drop the row — get_fb_ads_data preserves the row count, and get_data
keeps exactly the rows surviving the dropna on Date and Source whenever
it returns at all. -/
theorem measure_fallback_values :
    (∀ c : Cell, parseNum c = none → coerceNum 1 c = 1 ∧ coerceNum 0 c = 0) ∧
    (∀ f : Frame, (get_fb_ads_data f).rows.length = f.rows.length) ∧
    (∀ (rows : List RawRow) (out : List AORow), get_data rows = .ok out →
      out.length = (aoDropna rows).length) := by
  refine ⟨?_, ?_, ?_⟩
  · intro c h
    simp [coerceNum, h]
  · intro f
    exact foldl_coerceColumn_length fbNumericCols f
  · intro rows out h
    unfold get_data at h
    split at h
    · simp only [Except.ok.injEq] at h
      subst h
      simp
    · cases h

/-- Witness for C3: the fallbacks at the unparsable cell value N/A, the
row-count preservation at a concrete frame, and the get_data row count at
the empty row list. -/
theorem measure_fallback_values_witness :
    (coerceNum 1 (Cell.str "N/A") = 1 ∧ coerceNum 0 (Cell.str "N/A") = 0) ∧
    (get_fb_ads_data ⟨["spend"], [[("spend", Cell.str "x")]]⟩).rows.length
      = ([[("spend", Cell.str "x")]] : List RawRow).length ∧
    (0 : Nat) = (aoDropna []).length :=
  ⟨measure_fallback_values.1 (Cell.str "N/A") rfl,
   measure_fallback_values.2.1 _,
   measure_fallback_values.2.2 [] [] rfl⟩

/-- C4 counterexample: asking the Emails Envoyés metric of a mail frame
whose schema lacks the Email Envoyé column raises KeyError (the model
returns Except.error), instead of returning an empty or zero result with
a warning. -/
theorem missing_column_metric_raises :
    sentEmailsMetric ⟨["Date"], [[("Date", Cell.str "2024-01-05")]]⟩
      = Except.error "KeyError" := rfl

/-- C4 amended: only the Date column is guarded — get_mail_data skips any
worksheet whose columns lack Date and returns normally — while a metric
referencing any other absent column (such as Email Envoyé) raises
KeyError and aborts the page instead of returning an empty result. -/
theorem missing_column_behavior :
    (∀ ws : Worksheet, "Date" ∉ ws.cols → processWs ws = []) ∧
    (∀ f : Frame, "Email Envoyé " ∉ f.cols →
      sentEmailsMetric f = Except.error "KeyError") := by
  constructor
  · intro ws h
    simp [processWs, h]
  · intro f h
    simp [sentEmailsMetric, Frame.getCol, h, Except.map]

/-- Witness for C4 at concrete inputs: a worksheet without a Date column
contributes nothing, and a frame without the Email Envoyé column makes
the metric raise. -/
theorem missing_column_behavior_witness :
    processWs ⟨"S1", ["Nom"], [[("Nom", Cell.str "X")]]⟩ = [] ∧
    sentEmailsMetric ⟨["Date", "Nom"], []⟩ = Except.error "KeyError" :=
  ⟨missing_column_behavior.1 _ (by decide), missing_column_behavior.2 _ (by decide)⟩

/-- C9 counterexample: when the accepted count is missing but an opened
count is present, get_mailgun_stats does NOT return (0, 0): it returns
the opened count alongside a zero rate. -/
theorem mailgun_accepted_missing_not_zero_pair :
    get_mailgun_stats (.ok 200 (some [⟨none, some ⟨some 5⟩⟩])) = ((0 : ℚ), (5 : Nat)) ∧
    ((0 : ℚ), (5 : Nat)) ≠ ((0 : ℚ), (0 : Nat)) := by
  exact ⟨rfl, by decide⟩

/-- C9 amended: get_mailgun_stats always returns a pair and never raises;
it returns (0, 0) on an exception, on a non-200 status, on a missing
stats key and on an empty stats array; and whenever the accepted total of
the first stats entry is 0 — in particular when the accepted count is
missing — the returned open rate is 0 (the opened count is returned
as-is). -/
theorem mailgun_stats_guarded :
    get_mailgun_stats .exc = ((0 : ℚ), (0 : Nat)) ∧
    (∀ (status : Nat) (stats? : Option (List MgStat)), status ≠ 200 →
      get_mailgun_stats (.ok status stats?) = ((0 : ℚ), (0 : Nat))) ∧
    get_mailgun_stats (.ok 200 none) = ((0 : ℚ), (0 : Nat)) ∧
    get_mailgun_stats (.ok 200 (some [])) = ((0 : ℚ), (0 : Nat)) ∧
    (∀ (s : MgStat) (rest : List MgStat), sectionTotal s.accepted = 0 →
      (get_mailgun_stats (.ok 200 (some (s :: rest)))).1 = 0) := by
  refine ⟨rfl, ?_, rfl, rfl, ?_⟩
  · intro st stats h
    simp [get_mailgun_stats, h]
  · intro s rest h
    simp [get_mailgun_stats, mgRateOf, h]

/-- Witness for C9 at concrete inputs: a 404 response yields (0, 0), and a
stats entry with accepted total 0 yields rate 0. -/
theorem mailgun_stats_guarded_witness :
    get_mailgun_stats (.ok 404 none) = ((0 : ℚ), (0 : Nat)) ∧
    (get_mailgun_stats (.ok 200 (some [⟨some ⟨some 0⟩, some ⟨some 7⟩⟩]))).1 = 0 :=
  ⟨mailgun_stats_guarded.2.1 404 none (by decide),
   mailgun_stats_guarded.2.2.2.2 _ [] rfl⟩

end Dashboard
